import Mathlib

/-!
Verification of the open-ippoc mesh trust-and-secure-messaging core.

Shallow embedding of the Rust sources:
  - `src/infra/src/soma/mesh/src/crypto.rs`  (identity, DH, AEAD, signatures)
  - `src/body/src/protocol.rs`               (standalone signed-packet admission)
  - `src/src/soma/mesh/src/peer.rs`          (peer records, trust ledger, reputation)
  - `src/body/mesh/src/mesh.rs`              (mesh facade, handshake, replay cache)
  - `src/body/mesh/src/messages.rs`          (message envelope)

Bytes are modelled as `List Nat` (each entry a byte value).  External
cryptographic libraries (x25519-dalek, ed25519-dalek, aes-gcm, hkdf, sha2)
are modelled by executable algebraic stand-ins that satisfy the library
contracts the source relies on: Diffie-Hellman is modular exponentiation in
the multiplicative group mod 2^255 - 19 (the curve25519 prime, base point 9),
the AEAD ciphertext carries a tag binding key, nonce and plaintext, and an
Ed25519 signature is a deterministic 64-byte function of the public key and
the message.  Everything downstream of the primitives is translated directly
from the Rust source.
-/

namespace Ippoc

/-- Little-endian base-256 digits of `x`, exactly `n` digits. -/
def natToLE : Nat → Nat → List Nat
  | 0, _ => []
  | n + 1, x => (x % 256) :: natToLE n (x / 256)

/-- Value of a little-endian base-256 digit list. -/
def bytesToNatLE : List Nat → Nat
  | [] => 0
  | b :: rest => b + 256 * bytesToNatLE rest

/-- Big-endian 8-byte encoding of a `u64` (`u64::to_be_bytes`). -/
def beBytes8 (x : Nat) : List Nat := (natToLE 8 x).reverse

/-- Deterministic injective-per-length accumulator used by the modelled
primitives (hash/KDF/tag stand-in).  On byte lists of equal length it is
injective: it reads the list as big-endian base-257 digits `b + 1`. -/
def byteMix (l : List Nat) : Nat := l.foldl (fun a b => a * 257 + b + 1) 1

/-- UTF-8 bytes of a string (modelled as the code points; identical for the
ASCII strings appearing in the protocol). -/
def strBytes (s : String) : List Nat := s.data.map Char.toNat

/-- Value of one hexadecimal digit character, computed from the code point
(`hex` crate accepts both cases). -/
def hexDigitVal (c : Char) : Option Nat :=
  let n := c.toNat
  if 48 ≤ n ∧ n ≤ 57 then some (n - 48)
  else if 97 ≤ n ∧ n ≤ 102 then some (n - 87)
  else if 65 ≤ n ∧ n ≤ 70 then some (n - 55)
  else none

/-- `hex::decode` on a character list: fails on odd length or a non-hex digit. -/
def hexDecodeChars : List Char → Option (List Nat)
  | [] => some []
  | [_] => none
  | c1 :: c2 :: rest =>
    match hexDigitVal c1, hexDigitVal c2, hexDecodeChars rest with
    | some h, some l, some bs => some ((h * 16 + l) :: bs)
    | _, _, _ => none

/-- `hex::decode` of a string into bytes. -/
def hexDecode (s : String) : Option (List Nat) := hexDecodeChars s.data

/-- Lower-case hex digit character for a value below 16, computed from the
code point. -/
def hexDigitChar (n : Nat) : Char :=
  if n < 10 then Char.ofNat (48 + n) else Char.ofNat (87 + (min n 15))

/-- `hex::encode` of a byte list (two lower-case digits per byte). -/
def hexEncodeBytes : List Nat → List Char
  | [] => []
  | b :: rest => hexDigitChar (b % 256 / 16) :: hexDigitChar (b % 16) :: hexEncodeBytes rest

/-- `hex::encode` returning a string. -/
def hexEncode (l : List Nat) : String := String.mk (hexEncodeBytes l)

/-! ## Model of the cryptographic primitives (crypto.rs)

The source delegates to x25519-dalek, ed25519-dalek, hkdf, sha2 and aes-gcm.
Those libraries are modelled here; the compositions below them
(`NodeSecrets`, `derive_shared`, `encrypt_message`, `decrypt_message`,
`verify_signature`) are translated from `crypto.rs`. -/

/-- The curve25519 prime 2^255 - 19. -/
def p25519 : Nat := 2 ^ 255 - 19

/-- Model of the X25519 Diffie-Hellman: the peer point (32 bytes,
little-endian) is raised to the local scalar in the group mod `p25519`.
Captures the contract `(g^a)^b = (g^b)^a` the source relies on; scalar
clamping is abstracted away. -/
def x25519Dh (scalar : Nat) (point : List Nat) : List Nat :=
  natToLE 32 (bytesToNatLE point ^ scalar % p25519)

/-- Model of `x25519_dalek::PublicKey::from(&secret)`: the base point 9
raised to the secret scalar. -/
def x25519Public (scalar : Nat) : List Nat :=
  natToLE 32 (9 ^ scalar % p25519)

/-- Model of SHA-256: a deterministic 32-byte digest. -/
def sha256Model (l : List Nat) : List Nat := natToLE 32 (byteMix l)

/-- Model of HKDF-SHA256 (no salt) expanded to 32 bytes with an info string. -/
def hkdfSha256 (ikm : List Nat) (info : List Nat) : List Nat :=
  natToLE 32 (byteMix (ikm ++ info))

/-- Model of the Ed25519 public key derived from a 32-byte seed. -/
def edPublic (seed : List Nat) : List Nat := natToLE 32 (byteMix seed)

/-- Model of an Ed25519 signature: the unique valid 64-byte signature of
`msg` under the key pair of public key `pk`. -/
def idealSig (pk msg : List Nat) : List Nat := natToLE 64 (byteMix (pk ++ msg))

/-- Model of `ed25519_dalek` signing with the secret seed. -/
def edSign (seed msg : List Nat) : List Nat := idealSig (edPublic seed) msg

/-- `NodeSecrets` (crypto.rs): X25519 static secret (modelled as its scalar)
and Ed25519 signing key (modelled as its 32-byte seed). -/
structure NodeSecrets where
  exchange_secret : Nat
  signing_seed : List Nat
  deriving DecidableEq, Repr

/-- `NodeIdentity` (crypto.rs). -/
structure NodeIdentity where
  id : String
  exchange_public : List Nat
  signing_public : List Nat
  role : String
  name : String
  deriving DecidableEq, Repr

/-- `NodeSecrets::identity` (crypto.rs): id is the hex SHA-256 of the
signing public key. -/
def NodeSecrets.identity (s : NodeSecrets) (name role : String) : NodeIdentity :=
  { id := hexEncode (sha256Model (edPublic s.signing_seed))
    exchange_public := x25519Public s.exchange_secret
    signing_public := edPublic s.signing_seed
    role := role
    name := name }

/-- `SharedSecret` (crypto.rs): 32-byte symmetric key. -/
structure SharedSecret where
  key : List Nat
  deriving DecidableEq, Repr

/-- `NodeSecrets::derive_shared` (crypto.rs): X25519 DH, then HKDF-SHA256
with the fixed info string `ippoc-ai-mesh-v1`, expanded to 32 bytes. -/
def NodeSecrets.derive_shared (s : NodeSecrets) (peer_public : List Nat) : SharedSecret :=
  { key := hkdfSha256 (x25519Dh s.exchange_secret peer_public) (strBytes "ippoc-ai-mesh-v1") }

/-- `NodeSecrets::sign` (crypto.rs). -/
def NodeSecrets.sign (s : NodeSecrets) (msg : List Nat) : List Nat :=
  edSign s.signing_seed msg

/-- Model of the AES-256-GCM encryption of `pt` under `key` and `nonce`:
the ciphertext carries the plaintext followed by a tag binding the key (32
bytes) plus the nonce and plaintext (one accumulator entry).  Decryption
succeeds exactly when the tag verifies under the presented key. -/
def aesGcmEncrypt (key nonce pt : List Nat) : List Nat :=
  pt ++ key ++ [byteMix (nonce ++ pt)]

/-- Model of AES-256-GCM decryption (tag check, then plaintext). -/
def aesGcmDecrypt (key nonce ct : List Nat) : Option (List Nat) :=
  if ct.length < 33 then none
  else
    let pt := ct.take (ct.length - 33)
    if ct.drop (ct.length - 33) = key ++ [byteMix (nonce ++ pt)] then some pt else none

/-- `encrypt_message` (crypto.rs): random 96-bit nonce (passed explicitly),
AES-256-GCM, result is `nonce ∥ ciphertext‖tag`.  The source returns
`Result`; the AES encryption error path is unreachable, so the model always
returns `ok`. -/
def encrypt_message (shared : SharedSecret) (plaintext : List Nat)
    (nonce_bytes : List Nat) : Except String (List Nat) :=
  .ok (nonce_bytes ++ aesGcmEncrypt shared.key nonce_bytes plaintext)

/-- `decrypt_message` (crypto.rs): rejects blobs shorter than the 12-byte
nonce with one error, and AEAD tag failures with a different error —
mirroring the two distinct `anyhow!` messages in the source. -/
def decrypt_message (shared : SharedSecret) (encrypted : List Nat) :
    Except String (List Nat) :=
  if encrypted.length < 12 then .error "Invalid encrypted message: too short"
  else
    let nonce_bytes := encrypted.take 12
    let ciphertext := encrypted.drop 12
    match aesGcmDecrypt shared.key nonce_bytes ciphertext with
    | some pt => .ok pt
    | none => .error "Decryption failed: aead::Error"

/-- `verify_signature` (crypto.rs): `Err` when the public key is malformed
(in the model: wrong length), otherwise `Ok` of whether the signature is
the valid one. -/
def verify_signature (signing_public msg sig : List Nat) : Except String Bool :=
  if signing_public.length = 32 then .ok (decide (sig = idealSig signing_public msg))
  else .error "Invalid public key"

/-! ## Standalone signed-packet admission path (body/src/protocol.rs) -/

/-- `PacketHeader` (protocol.rs). -/
structure PacketHeader where
  node_id : String
  signature : List Nat
  timestamp : Nat
  nonce : String
  deriving DecidableEq, Repr

/-- `SignedPacket` (protocol.rs). -/
structure SignedPacket where
  header : PacketHeader
  payload : List Nat
  deriving DecidableEq, Repr

/-- Canonical signature material: `payload ∥ big_endian(timestamp) ∥ nonce`
(protocol.rs, `sign`/`verify`). -/
def SignedPacket.material (p : SignedPacket) : List Nat :=
  p.payload ++ beBytes8 p.header.timestamp ++ strBytes p.header.nonce

/-- `SignedPacket::verify` (protocol.rs).  `now` is the wall clock passed
explicitly (the source reads `SystemTime::now`; the `u64` subtraction
`now - 300` is the truncated Nat subtraction, identical for `now ≥ 300`).
Returns `Ok false` when the timestamp is outside the ±300 s window or when
the Ed25519 signature mismatches; returns `Err` only when the registered
public key or the signature bytes are malformed. -/
def SignedPacket.verify (p : SignedPacket) (public_key_bytes : List Nat)
    (now : Nat) : Except String Bool :=
  if p.header.timestamp < now - 300 ∨ p.header.timestamp > now + 300 then .ok false
  else if public_key_bytes.length ≠ 32 then .error "TryFromSliceError"
  else if p.header.signature.length ≠ 64 then .error "InvalidSignatureLength"
  else if p.header.signature = idealSig public_key_bytes p.material then .ok true
  else .ok false

/-- Time-bounded `ReplayCache` (protocol.rs): map nonce → timestamp. -/
structure TimeReplayCache where
  seen_nonces : List (String × Nat)
  deriving DecidableEq, Repr

/-- `ReplayCache::is_replay` (protocol.rs): prune entries older than the
300 s window, report a replay if the nonce is still tracked, otherwise
record it at `now`. -/
def TimeReplayCache.is_replay (c : TimeReplayCache) (nonce : String)
    (now : Nat) : Bool × TimeReplayCache :=
  let pruned := c.seen_nonces.filter (fun kv => decide (kv.2 > now - 300))
  if (pruned.lookup nonce).isSome then (true, ⟨pruned⟩)
  else (false, ⟨pruned ++ [(nonce, now)]⟩)

/-- `TrustLevel` (protocol.rs) — the standalone admission path's trust
states; `Rejected` is documented terminal. -/
inductive PTrustLevel where
  | New
  | Probation
  | Trusted
  | System
  | Rejected
  deriving DecidableEq, Repr

/-- `PeerState` (protocol.rs). -/
structure PeerState where
  public_key : List Nat
  trust_level : PTrustLevel
  last_seen : Nat
  packet_count : Nat
  deriving DecidableEq, Repr

/-- `AdmissionManager` (protocol.rs). -/
structure AdmissionManager where
  local_node_id : String
  replay_cache : TimeReplayCache
  peer_registry : List (String × PeerState)
  deriving DecidableEq, Repr

/-- Update the peer state stored under `node_id` (the `get_mut` mutation). -/
def registryUpdate (r : List (String × PeerState)) (node_id : String)
    (f : PeerState → PeerState) : List (String × PeerState) :=
  r.map (fun kv => if kv.1 = node_id then (kv.1, f kv.2) else kv)

/-- `AdmissionManager::penalize` (protocol.rs): downgrade a known peer to
`Rejected`. -/
def AdmissionManager.penalize (m : AdmissionManager) (node_id : String) :
    AdmissionManager :=
  let r := registryUpdate m.peer_registry node_id
    (fun s => { s with trust_level := .Rejected })
  { m with peer_registry := r }

/-- `AdmissionManager::should_admit` (protocol.rs), returning the decision
and the updated manager.  Note: step 4 in the source is
`if let Err(e) = packet.verify(..)`, so a verification result of
`Ok(false)` (signature mismatch or stale timestamp) falls through to the
admission path; only a malformed key/signature (`Err`) triggers the
terminal downgrade. -/
def AdmissionManager.should_admit (m : AdmissionManager) (p : SignedPacket)
    (now : Nat) : Bool × AdmissionManager :=
  let rep := m.replay_cache.is_replay p.header.nonce now
  let m1 : AdmissionManager := { m with replay_cache := rep.2 }
  if rep.1 then (false, m1.penalize p.header.node_id)
  else
    match m1.peer_registry.lookup p.header.node_id with
    | none =>
      if p.header.node_id = m1.local_node_id then (true, m1) else (false, m1)
    | some state =>
      if state.trust_level = .Rejected then (false, m1)
      else
        match p.verify state.public_key now with
        | .error _ =>
          let r := registryUpdate m1.peer_registry p.header.node_id
            (fun s => { s with trust_level := .Rejected })
          (false, { m1 with peer_registry := r })
        | .ok _verified =>
          let state1 : PeerState :=
            { state with packet_count := state.packet_count + 1, last_seen := now }
          let state2 : PeerState :=
            if state1.trust_level = .New ∧ state1.packet_count ≥ 10 then
              { state1 with trust_level := .Probation }
            else state1
          let r := registryUpdate m1.peer_registry p.header.node_id (fun _ => state2)
          (true, { m1 with peer_registry := r })

/-! ## Peer records and trust ledger (src/soma/mesh/src/peer.rs) -/

/-- `PeerStatus` (peer.rs). -/
inductive PeerStatus where
  | Discovered
  | Connecting
  | Connected
  | Disconnected
  | Blocked
  deriving DecidableEq, Repr

/-- `TrustLevel` (peer.rs) with the explicit discriminants
Blacklisted = -1 … System = 4. -/
inductive TrustLevel where
  | Blacklisted
  | Unknown
  | Discovered
  | Authenticated
  | Trusted
  | System
  deriving DecidableEq, Repr

/-- The integer discriminant of a `TrustLevel` (the `Ord` derive compares
these values). -/
def TrustLevel.toInt : TrustLevel → Int
  | .Blacklisted => -1
  | .Unknown => 0
  | .Discovered => 1
  | .Authenticated => 2
  | .Trusted => 3
  | .System => 4

/-- `Peer` (peer.rs).  `last_seen` is a timestamp number; the unused network
address is omitted. -/
structure Peer where
  identity : NodeIdentity
  status : PeerStatus
  trust_level : TrustLevel
  shared_secret : Option (List Nat)
  last_seen : Nat
  last_sequence : Nat
  rtt_ms : Nat
  trust_score : Nat
  capabilities : List String
  deriving DecidableEq, Repr

/-- `Peer::new` (peer.rs): status Discovered, trust Discovered, neutral
score 50, capabilities seeded with the role. -/
def Peer.new (identity : NodeIdentity) (now : Nat) : Peer :=
  { identity := identity
    status := .Discovered
    trust_level := .Discovered
    shared_secret := none
    last_seen := now
    last_sequence := 0
    rtt_ms := 0
    trust_score := 50
    capabilities := [identity.role] }

/-- `Peer::set_shared_secret` (peer.rs): also marks the peer Connected. -/
def Peer.set_shared_secret (p : Peer) (secret : List Nat) : Peer :=
  { p with shared_secret := some secret, status := .Connected }

/-- `Peer::set_trust_level` (peer.rs). -/
def Peer.set_trust_level (p : Peer) (level : TrustLevel) : Peer :=
  { p with trust_level := level }

/-- `Peer::authenticate` (peer.rs): raise to Authenticated when the current
level compares below it (the derived order on the discriminants). -/
def Peer.authenticate (p : Peer) : Peer :=
  if p.trust_level.toInt < TrustLevel.Authenticated.toInt then
    { p with trust_level := .Authenticated, status := .Connected }
  else p

/-- `Peer::blacklist` (peer.rs). -/
def Peer.blacklist (p : Peer) : Peer :=
  { p with trust_level := .Blacklisted, status := .Blocked }

/-- The `i16::clamp(0, 100)` call of `Peer::update_trust`. -/
def clampScore (x : Int) : Int :=
  if x < 0 then 0 else if x > 100 then 100 else x

/-- `Peer::update_trust` (peer.rs): clamp the adjusted score to [0,100],
then auto-promote Authenticated → Trusted at score ≥ 80. -/
def Peer.update_trust (p : Peer) (delta : Int) : Peer :=
  let p1 := { p with trust_score := (clampScore ((p.trust_score : Int) + delta)).toNat }
  if p1.trust_level = .Authenticated ∧ p1.trust_score ≥ 80 then
    { p1 with trust_level := .Trusted }
  else p1

/-- `Peer::is_available` (peer.rs). -/
def Peer.is_available (p : Peer) : Bool := p.status = .Connected

/-- `PeerTable` (peer.rs): NodeID → Peer, modelled as an association list
with unique keys (`HashMap`). -/
def PeerTable := List (String × Peer)

/-- `PeerTable::upsert` (peer.rs): `HashMap::insert` keyed by the peer's
identity id — replace an existing binding or add a new one. -/
def tableUpsert (t : List (String × Peer)) (p : Peer) : List (String × Peer) :=
  if (t.lookup p.identity.id).isSome then
    t.map (fun kv => if kv.1 = p.identity.id then (kv.1, p) else kv)
  else t ++ [(p.identity.id, p)]

/-- In-place mutation of the peer bound to `k` (`PeerTable::get_mut`). -/
def tableUpdate (t : List (String × Peer)) (k : String) (f : Peer → Peer) :
    List (String × Peer) :=
  t.map (fun kv => if kv.1 = k then (kv.1, f kv.2) else kv)

/-- `ReputationEntry` (peer.rs): the persisted subset of a peer. -/
structure ReputationEntry where
  id : String
  trust_level : TrustLevel
  trust_score : Nat
  last_seen : Nat
  deriving DecidableEq, Repr

/-- `ReputationManager::save` (peer.rs): snapshot every peer's id, trust
level and score (`last_seen` is re-stamped with the current time). -/
def reputationSave (peers : List (String × Peer)) (now : Nat) :
    List ReputationEntry :=
  peers.map (fun kv =>
    { id := kv.2.identity.id
      trust_level := kv.2.trust_level
      trust_score := kv.2.trust_score
      last_seen := now })

/-- Reinterpret a `u8` as an `i8` (`as i8` cast). -/
def i8OfU8 (v : Nat) : Int := if v < 128 then (v : Int) else (v : Int) - 256

/-- Wrapping `i8` arithmetic result (release-mode overflow semantics). -/
def i8Wrap (x : Int) : Int := (x + 128) % 256 - 128

/-- One step of the boot-time reputation reload (`AiMesh::new`, mesh.rs
lines 118-128): build a placeholder peer, restore the persisted trust
level, then adjust the score by the `i8` difference through
`update_trust` — whose auto-promotion also runs. -/
def reloadPeer (entry : ReputationEntry) (now : Nat) : Peer :=
  let peer := Peer.new
    { id := entry.id
      exchange_public := List.replicate 32 0
      signing_public := List.replicate 32 0
      role := "unknown"
      name := "unknown" } now
  let peer := peer.set_trust_level entry.trust_level
  peer.update_trust (i8Wrap (i8OfU8 entry.trust_score - i8OfU8 peer.trust_score))

/-- The peer table rebuilt from loaded reputation entries (`AiMesh::new`). -/
def rebuildPeerTable (entries : List ReputationEntry) (now : Nat) :
    List (String × Peer) :=
  entries.foldl (fun t e => tableUpsert t (reloadPeer e now)) []

/-! ## Message envelope (body/mesh/src/messages.rs) -/

/-- `MessageType` (messages.rs). -/
inductive MessageType where
  | Thought
  | Broadcast
  | Direct
  | Discovery
  | CollaborationRequest
  | Response
  | MemorySync
  | ToolRequest
  | EvolutionProposal
  | Handshake
  deriving DecidableEq, Repr

/-- `HandshakeKind` (messages.rs). -/
inductive HandshakeKind where
  | Syn
  | SynAck
  | Ack
  deriving DecidableEq, Repr

/-- `HandshakeMessage` (messages.rs): fixed-size keys and 16-byte nonce,
optional challenge blob. -/
structure HandshakeMessage where
  kind : HandshakeKind
  exchange_public : List Nat
  signing_public : List Nat
  nonce : List Nat
  challenge : Option (List Nat)
  deriving DecidableEq, Repr

/-- `AiMessage` (messages.rs).  The UUID id is a string; timestamps are
numbers. -/
structure AiMessage where
  id : String
  msg_type : MessageType
  sender : String
  recipient : Option String
  timestamp : Nat
  payload : List Nat
  signature : String
  sequence : Nat
  nonce : Nat
  reply_to : Option String
  deriving DecidableEq, Repr

/-- Model of the serde_json wire form of a `HandshakeMessage`: a kind tag,
the three fixed-size fields, then a challenge-presence tag. -/
def encodeHandshake (hs : HandshakeMessage) : List Nat :=
  let tag : Nat := match hs.kind with | .Syn => 0 | .SynAck => 1 | .Ack => 2
  let ch : List Nat := match hs.challenge with | none => [0] | some c => 1 :: c
  tag :: (hs.exchange_public ++ hs.signing_public ++ hs.nonce ++ ch)

/-- Model of `serde_json::from_slice::<HandshakeMessage>`: parse the wire
form above, `none` on anything else. -/
def decodeHandshake (bs : List Nat) : Option HandshakeMessage :=
  match bs with
  | [] => none
  | t :: rest =>
    if rest.length < 81 then none
    else
      let ex := rest.take 32
      let sg := (rest.drop 32).take 32
      let nn := (rest.drop 64).take 16
      let kind : Option HandshakeKind :=
        match t with | 0 => some .Syn | 1 => some .SynAck | 2 => some .Ack | _ => none
      match kind, rest.drop 80 with
      | some k, 0 :: chrest =>
        if chrest = [] then some ⟨k, ex, sg, nn, none⟩ else none
      | some k, 1 :: chrest => some ⟨k, ex, sg, nn, some chrest⟩
      | _, _ => none

/-- The decoded field set `handle_discovery` extracts from a discovery
payload's JSON object. -/
structure DiscoveryInfo where
  id : Option String
  name : Option String
  role : Option String
  exchange_public : Option String
  signing_public : Option String
  deriving DecidableEq, Repr

/-- Length-prefixed encoding of an optional string field (model of one JSON
field). -/
def encodeOptStr : Option String → List Nat
  | none => [0]
  | some s => 1 :: s.data.length :: s.data.map Char.toNat

/-- Parser for `encodeOptStr`, returning the rest of the input. -/
def decodeOptStr : List Nat → Option (Option String × List Nat)
  | 0 :: rest => some (none, rest)
  | 1 :: n :: rest =>
    if n ≤ rest.length then
      some (some (String.mk ((rest.take n).map Char.ofNat)), rest.drop n)
    else none
  | _ => none

/-- Model of the serde_json wire form of a discovery payload. -/
def encodeDiscovery (d : DiscoveryInfo) : List Nat :=
  encodeOptStr d.id ++ encodeOptStr d.name ++ encodeOptStr d.role ++
    encodeOptStr d.exchange_public ++ encodeOptStr d.signing_public

/-- Model of `serde_json::from_slice::<Value>` plus the five field reads of
`handle_discovery`. -/
def decodeDiscovery (bs : List Nat) : Option DiscoveryInfo :=
  match decodeOptStr bs with
  | none => none
  | some (id, r1) =>
    match decodeOptStr r1 with
    | none => none
    | some (name, r2) =>
      match decodeOptStr r2 with
      | none => none
      | some (role, r3) =>
        match decodeOptStr r3 with
        | none => none
        | some (ex, r4) =>
          match decodeOptStr r4 with
          | none => none
          | some (sg, r5) =>
            if r5 = [] then some ⟨id, name, role, ex, sg⟩ else none

/-- Model of `serde_json::from_slice::<Value>` on a decrypted direct
payload: any non-empty byte string parses. -/
def parseJsonValue (bs : List Nat) : Option (List Nat) :=
  if bs = [] then none else some bs

/-! ## Mesh facade (body/mesh/src/mesh.rs) -/

/-- Count-bounded `ReplayCache` (mesh.rs bottom): a seen-set plus FIFO
arrival order, capacity-bounded. -/
structure ReplayCacheM where
  seen : List Nat
  order : List Nat
  capacity : Nat
  deriving DecidableEq, Repr

/-- A fresh, empty count-bounded replay cache (`ReplayCache::new`). -/
def ReplayCacheM.empty (capacity : Nat) : ReplayCacheM :=
  { seen := [], order := [], capacity := capacity }

/-- `ReplayCache::check_and_add` (mesh.rs): true iff the nonce is unseen;
on overflow the oldest tracked nonce is evicted first. -/
def ReplayCacheM.check_and_add (c : ReplayCacheM) (nonce : Nat) :
    Bool × ReplayCacheM :=
  if nonce ∈ c.seen then (false, c)
  else
    let c1 :=
      if c.order.length ≥ c.capacity then
        match c.order with
        | [] => c
        | old :: rest => { c with order := rest, seen := c.seen.erase old }
      else c
    (true, { c1 with seen := nonce :: c1.seen, order := c1.order ++ [nonce] })

/-- Folding a nonce sequence through `check_and_add` (repeated inbound
messages). -/
def ReplayCacheM.insertAll (c : ReplayCacheM) (xs : List Nat) : ReplayCacheM :=
  xs.foldl (fun c n => (c.check_and_add n).2) c

/-- The state of one `AiMesh` node: identity material, peer table, replay
cache, sequence counter and the persisted reputation file contents. -/
structure AiMeshState where
  secrets : NodeSecrets
  identity : NodeIdentity
  peers : List (String × Peer)
  replay : ReplayCacheM
  sequence : Nat
  repFile : List ReputationEntry
  deriving DecidableEq, Repr

/-- Explicit randomness consumed by one handler invocation: the 16-byte
`getrandom` handshake nonce, the 12-byte AEAD nonce, and the fresh message
id/nonce of a constructed envelope. -/
structure Rng where
  hsNonce : List Nat
  encNonce : List Nat
  msgId : String
  msgNonce : Nat
  deriving DecidableEq, Repr

instance exceptDecEq {ε α : Type} [DecidableEq ε] [DecidableEq α] :
    DecidableEq (Except ε α) := fun a b =>
  match a, b with
  | .ok x, .ok y =>
    if h : x = y then isTrue (h ▸ rfl)
    else isFalse (fun hc => h (Except.ok.inj hc))
  | .error e, .error f =>
    if h : e = f then isTrue (h ▸ rfl)
    else isFalse (fun hc => h (Except.error.inj hc))
  | .ok _, .error _ => isFalse (fun hc => Except.noConfusion hc)
  | .error _, .ok _ => isFalse (fun hc => Except.noConfusion hc)

/-- The observable outcome of a handler: the `Result`, the state after, the
messages pushed to the outbox and to the inbox broadcast, and the warn/info
log lines emitted. -/
structure HandleResult where
  res : Except String Unit
  state : AiMeshState
  outMsgs : List AiMessage
  inMsgs : List AiMessage
  log : List String
  deriving DecidableEq, Repr

/-- `AiMessage::handshake` (messages.rs): fresh id and nonce (from `rng`),
empty signature, sequence 0. -/
def AiMessage.handshake (rng : Rng) (now : Nat) (sender : String)
    (recipient : Option String) (hs : HandshakeMessage) : AiMessage :=
  { id := rng.msgId
    msg_type := .Handshake
    sender := sender
    recipient := recipient
    timestamp := now
    payload := encodeHandshake hs
    signature := ""
    sequence := 0
    nonce := rng.msgNonce
    reply_to := none }

/-- The `.map(|b| { arr.copy_from_slice(&b); arr }).unwrap_or([0u8; 32])`
chain of `handle_discovery`: a missing or non-hex field falls back to
zeros, a hex field of the wrong length makes `copy_from_slice` abort
(surfaced as an error here). -/
def copy32 (b : Option (List Nat)) : Except String (List Nat) :=
  match b with
  | none => .ok (List.replicate 32 0)
  | some bytes =>
    if bytes.length = 32 then .ok bytes
    else .error "copy_from_slice length mismatch"

/-- `AiMesh::handle_discovery` (mesh.rs): parse the announcement, build a
Peer, derive the shared secret from the advertised exchange key, store it
and upsert the peer. -/
def handleDiscovery (st : AiMeshState) (msg : AiMessage) (now : Nat) :
    HandleResult :=
  match decodeDiscovery msg.payload with
  | none => ⟨.error "invalid discovery payload", st, [], [], []⟩
  | some info =>
    match info.id, info.name, info.role with
    | some id, some name, some role =>
      match copy32 (info.exchange_public.bind hexDecode),
            copy32 (info.signing_public.bind hexDecode) with
      | .ok exb, .ok sgb =>
        let identity : NodeIdentity :=
          { id := id, exchange_public := exb, signing_public := sgb,
            role := role, name := name }
        let peer := Peer.new identity now
        let shared := st.secrets.derive_shared peer.identity.exchange_public
        let peer := peer.set_shared_secret shared.key
        ⟨.ok (), { st with peers := tableUpsert st.peers peer }, [], [],
          ["Adding peer"]⟩
      | _, _ => ⟨.error "copy_from_slice length mismatch", st, [], [], []⟩
    | _, _, _ => ⟨.ok (), st, [], [], []⟩

/-- `AiMesh::handle_direct` (mesh.rs): when the sender is known and a shared
secret exists, decrypt and parse the payload (failures abort before the
inbox forward); in every non-failing path the envelope is forwarded to the
inbox. -/
def handleDirect (st : AiMeshState) (msg : AiMessage) : HandleResult :=
  match st.peers.lookup msg.sender with
  | some peer =>
    match peer.shared_secret with
    | some s =>
      match decrypt_message ⟨s⟩ msg.payload with
      | .error e => ⟨.error e, st, [], [], []⟩
      | .ok pt =>
        match parseJsonValue pt with
        | none => ⟨.error "invalid json", st, [], [], []⟩
        | some _ => ⟨.ok (), st, [], [msg], ["Direct message"]⟩
    | none => ⟨.ok (), st, [], [msg], []⟩
  | none => ⟨.ok (), st, [], [msg], []⟩

/-- `AiMesh::handle_handshake` (mesh.rs).  Syn: verify the claimed id is the
hash of the embedded signing key, create a Discovered peer with the derived
shared secret and answer SynAck with the encrypted challenge.  SynAck: for a
known peer holding a shared secret and a present challenge, decrypt the
challenge and check only that it is 16 bytes long, then mark the peer
Authenticated and answer Ack.  Ack: mark the peer Authenticated. -/
def handleHandshake (st : AiMeshState) (msg : AiMessage) (rng : Rng)
    (now : Nat) : HandleResult :=
  match decodeHandshake msg.payload with
  | none => ⟨.error "invalid handshake payload", st, [], [], []⟩
  | some hs =>
    match hs.kind with
    | .Syn =>
      let derived_id := hexEncode (sha256Model hs.signing_public)
      if derived_id ≠ msg.sender then
        ⟨.ok (), st, [], [], ["Handshake NodeID mismatch"]⟩
      else
        let peer := Peer.new
          { id := msg.sender
            exchange_public := hs.exchange_public
            signing_public := hs.signing_public
            role := "unknown"
            name := "unknown" } now
        let shared := st.secrets.derive_shared hs.exchange_public
        let peer := peer.set_shared_secret shared.key
        let peer := peer.set_trust_level .Discovered
        match encrypt_message shared hs.nonce rng.encNonce with
        | .error e => ⟨.error e, st, [], [], []⟩
        | .ok challenge =>
          let resp_hs : HandshakeMessage :=
            { kind := .SynAck
              exchange_public := st.identity.exchange_public
              signing_public := st.identity.signing_public
              nonce := rng.hsNonce
              challenge := some challenge }
          let st1 := { st with peers := tableUpsert st.peers peer }
          let resp_msg := AiMessage.handshake rng now st1.identity.id
            (some msg.sender) resp_hs
          let resp_msg :=
            { resp_msg with signature := hexEncode (st1.secrets.sign resp_msg.payload) }
          ⟨.ok (), st1, [resp_msg], [], []⟩
    | .SynAck =>
      match st.peers.lookup msg.sender with
      | none => ⟨.ok (), st, [], [], []⟩
      | some peer =>
        match peer.shared_secret, hs.challenge with
        | some shared, some challenge =>
          match decrypt_message ⟨shared⟩ challenge with
          | .error e => ⟨.error e, st, [], [], []⟩
          | .ok decrypted_nonce =>
            if decrypted_nonce.length ≠ 16 then
              ⟨.ok (), st, [], [], ["Invalid handshake challenge"]⟩
            else
              let resp_hs : HandshakeMessage :=
                { kind := .Ack
                  exchange_public := st.identity.exchange_public
                  signing_public := st.identity.signing_public
                  nonce := hs.nonce
                  challenge := none }
              let st1 := { st with peers := tableUpdate st.peers msg.sender Peer.authenticate }
              let resp_msg := AiMessage.handshake rng now st1.identity.id
                (some msg.sender) resp_hs
              let resp_msg :=
                { resp_msg with signature := hexEncode (st1.secrets.sign resp_msg.payload) }
              ⟨.ok (), st1, [resp_msg], [], ["Handshake completed"]⟩
        | _, _ => ⟨.ok (), st, [], [], []⟩
    | .Ack =>
      match st.peers.lookup msg.sender with
      | none => ⟨.ok (), st, [], [], []⟩
      | some _ =>
        ⟨.ok (), { st with peers := tableUpdate st.peers msg.sender Peer.authenticate },
          [], [], ["Handshake finalized"]⟩

/-- The reputation filter of `AiMesh::handle_message` (step 1): a known
sender that is Blacklisted or has trust_score below 10 is rejected. -/
def repFilterRejects (peers : List (String × Peer)) (msg : AiMessage) : Bool :=
  match peers.lookup msg.sender with
  | some peer => peer.trust_level = .Blacklisted ∨ peer.trust_score < 10
  | none => false

/-- Outcome of the signature-verification block of `handle_message`. -/
inductive GateResult where
  | proceed
  | dropped (logmsg : String)
  | failed (e : String)
  deriving DecidableEq, Repr

/-- The signature-verification block of `AiMesh::handle_message` (step 2):
verification runs only when the sender is a known peer AND the signature
field hex-decodes to exactly 64 bytes; every other shape skips the check
entirely.  An `Err` from `verify_signature` propagates (`?`); a `false`
verdict drops the message. -/
def signatureGate (peers : List (String × Peer)) (msg : AiMessage) :
    GateResult :=
  match peers.lookup msg.sender with
  | none => .proceed
  | some peer =>
    match hexDecode msg.signature with
    | none => .proceed
    | some sig_bytes =>
      if sig_bytes.length = 64 then
        match verify_signature peer.identity.signing_public msg.payload sig_bytes with
        | .error e => .failed e
        | .ok true => .proceed
        | .ok false => .dropped "Invalid signature from peer"
      else .proceed

/-- The tail of `AiMesh::handle_message` after the two admission gates:
replay-nonce check, dispatch on the message type, then the reputation
snapshot to disk. -/
def handleMessageCore (st : AiMeshState) (msg : AiMessage) (rng : Rng)
    (now : Nat) : HandleResult :=
  let chk := st.replay.check_and_add msg.nonce
  let st1 := { st with replay := chk.2 }
  if chk.1 = false then
    ⟨.ok (), st1, [], [], ["Replay attack detected or duplicate nonce"]⟩
  else
    let d : HandleResult :=
      match msg.msg_type with
      | .Discovery => handleDiscovery st1 msg now
      | .Thought => ⟨.ok (), st1, [], [msg], []⟩
      | .Broadcast => ⟨.ok (), st1, [], [msg], []⟩
      | .Direct =>
        if msg.recipient = some st1.identity.id then handleDirect st1 msg
        else ⟨.ok (), st1, [], [], []⟩
      | .Handshake => handleHandshake st1 msg rng now
      | _ => ⟨.ok (), st1, [], [msg], []⟩
    let st2 := { d.state with repFile := reputationSave d.state.peers now }
    ⟨d.res, st2, d.outMsgs, d.inMsgs, d.log⟩

/-- `AiMesh::handle_message` (mesh.rs): reputation filter, signature gate,
then replay check, dispatch and reputation persistence.  Every early drop
returns `Ok(())` with the state untouched. -/
def handleMessage (st : AiMeshState) (msg : AiMessage) (rng : Rng)
    (now : Nat) : HandleResult :=
  if repFilterRejects st.peers msg then
    ⟨.ok (), st, [], [], ["Rejecting message from low-reputation peer"]⟩
  else
    match signatureGate st.peers msg with
    | .failed e => ⟨.error e, st, [], [], []⟩
    | .dropped l => ⟨.ok (), st, [], [], [l]⟩
    | .proceed => handleMessageCore st msg rng now

/-- `AiMesh::initiate_handshake` (mesh.rs): requires a known peer, sends a
signed Syn carrying a fresh random 16-byte nonce N_a; the nonce is not
retained in any state. -/
def initiate_handshake (st : AiMeshState) (peer_id : String) (rng : Rng)
    (now : Nat) : Except String (AiMeshState × List AiMessage) :=
  match st.peers.lookup peer_id with
  | none => .error "Peer not found"
  | some _ =>
    let hs : HandshakeMessage :=
      { kind := .Syn
        exchange_public := st.identity.exchange_public
        signing_public := st.identity.signing_public
        nonce := rng.hsNonce
        challenge := none }
    let msg := AiMessage.handshake rng now st.identity.id (some peer_id) hs
    let msg := { msg with signature := hexEncode (st.secrets.sign msg.payload) }
    .ok (st, [msg])

/-! ## Concrete fixtures used to evaluate the model on closed inputs -/

/-- A minimal `NodeIdentity` with zeroed key material. -/
def testIdentity (id : String) : NodeIdentity :=
  { id := id
    exchange_public := List.replicate 32 0
    signing_public := List.replicate 32 0
    role := "tool"
    name := id }

/-- A minimal mesh state over the given peer table. -/
def testMeshState (peers : List (String × Peer)) : AiMeshState :=
  { secrets := { exchange_secret := 5, signing_seed := List.replicate 32 1 }
    identity := testIdentity "self"
    peers := peers
    replay := ReplayCacheM.empty 1000
    sequence := 0
    repFile := [] }

/-- Fixed randomness for handler invocations. -/
def testRng : Rng :=
  { hsNonce := List.replicate 16 2
    encNonce := List.replicate 12 2
    msgId := "rng-id"
    msgNonce := 2 }

/-- Registered peer for the standalone admission scenario (known, New,
valid 32-byte key). -/
def c1PeerState : PeerState :=
  { public_key := List.replicate 32 7
    trust_level := .New
    last_seen := 0
    packet_count := 0 }

/-- Admission manager knowing peer `A`. -/
def c1Mgr : AdmissionManager :=
  { local_node_id := "L"
    replay_cache := ⟨[]⟩
    peer_registry := [("A", c1PeerState)] }

/-- A packet from `A` whose 64-byte signature is not the valid signature of
its material under the registered key. -/
def c1Packet : SignedPacket :=
  { header :=
      { node_id := "A"
        signature := List.replicate 64 0
        timestamp := 1000
        nonce := "n1" }
    payload := [1, 2, 3] }

/-- Shared secret stored for the handshake peer `B`. -/
def c2Shared : List Nat := List.replicate 32 3

/-- Peer `B` as the initiator's table holds it after discovery. -/
def c2PeerB : Peer := (Peer.new (testIdentity "B") 0).set_shared_secret c2Shared

/-- Initiator state knowing peer `B`. -/
def c2State : AiMeshState := testMeshState [("B", c2PeerB)]

/-- Randomness consumed by `initiate_handshake`: N_a is 16 zero bytes. -/
def c2RngA : Rng :=
  { hsNonce := List.replicate 16 0
    encNonce := List.replicate 12 0
    msgId := "syn-id"
    msgNonce := 1 }

/-- The Syn handshake body `initiate_handshake` emits from `c2State`. -/
def c2SynHs : HandshakeMessage :=
  { kind := .Syn
    exchange_public := List.replicate 32 0
    signing_public := List.replicate 32 0
    nonce := List.replicate 16 0
    challenge := none }

/-- The signed Syn envelope `initiate_handshake` emits from `c2State`. -/
def c2SynMsg : AiMessage :=
  let m := AiMessage.handshake c2RngA 0 "self" (some "B") c2SynHs
  { m with signature := hexEncode (edSign (List.replicate 32 1) m.payload) }

/-- A challenge that decrypts under the shared secret to 16 bytes different
from N_a. -/
def c2Challenge : List Nat :=
  List.replicate 12 9 ++ aesGcmEncrypt c2Shared (List.replicate 12 9) (List.replicate 16 1)

/-- The SynAck handshake body carrying that challenge. -/
def c2SynAckHs : HandshakeMessage :=
  { kind := .SynAck
    exchange_public := List.replicate 32 0
    signing_public := List.replicate 32 0
    nonce := List.replicate 16 5
    challenge := some c2Challenge }

/-- The SynAck envelope from `B`. -/
def c2SynAckMsg : AiMessage :=
  { id := "m2"
    msg_type := .Handshake
    sender := "B"
    recipient := some "self"
    timestamp := 0
    payload := encodeHandshake c2SynAckHs
    signature := ""
    sequence := 0
    nonce := 7
    reply_to := none }

/-- A peer blacklisted for violations. -/
def c3Peer : Peer := (Peer.new (testIdentity "E") 0).blacklist

/-- Mesh state whose table holds the blacklisted peer `E`. -/
def c3State : AiMeshState := testMeshState [("E", c3Peer)]

/-- A thought envelope from the blacklisted sender `E`. -/
def c3Msg : AiMessage :=
  { id := "c3"
    msg_type := .Thought
    sender := "E"
    recipient := none
    timestamp := 0
    payload := [1]
    signature := ""
    sequence := 0
    nonce := 3
    reply_to := none }

/-- Admission manager whose registry holds `E` as Rejected. -/
def c3Mgr : AdmissionManager :=
  { local_node_id := "L"
    replay_cache := ⟨[]⟩
    peer_registry :=
      [("E", { public_key := List.replicate 32 7
               trust_level := .Rejected
               last_seen := 0
               packet_count := 0 })] }

/-- A correctly signed packet from the Rejected peer `E`. -/
def c3Packet : SignedPacket :=
  { header :=
      { node_id := "E"
        signature := idealSig (List.replicate 32 7) ([] ++ beBytes8 400 ++ strBytes "n")
        timestamp := 400
        nonce := "n" }
    payload := [] }

/-- A Syn handshake body from a fresh peer (for the trust-reset scenario). -/
def c4SynHs : HandshakeMessage :=
  { kind := .Syn
    exchange_public := List.replicate 32 4
    signing_public := List.replicate 32 6
    nonce := List.replicate 16 0
    challenge := none }

/-- The Syn envelope whose sender id matches the hash of its signing key. -/
def c4SynMsg : AiMessage :=
  { id := "c4"
    msg_type := .Handshake
    sender := hexEncode (sha256Model (List.replicate 32 6))
    recipient := some "self"
    timestamp := 0
    payload := encodeHandshake c4SynHs
    signature := ""
    sequence := 0
    nonce := 11
    reply_to := none }

/-- A reachable peer that is Authenticated with trust score 85 (score raised
while Discovered, then authenticated). -/
def c9Peer : Peer := ((Peer.new (testIdentity "p1") 0).update_trust 35).authenticate

/-- An envelope from the blacklisted sender `E` with a non-hex signature
field. -/
def c10Msg : AiMessage :=
  { id := "c10"
    msg_type := .Thought
    sender := "E"
    recipient := none
    timestamp := 0
    payload := [1]
    signature := "zz"
    sequence := 0
    nonce := 3
    reply_to := none }

/-- An envelope from an unknown sender with a non-hex signature field. -/
def c10UnknownMsg : AiMessage :=
  { id := "c10u"
    msg_type := .Thought
    sender := "x"
    recipient := none
    timestamp := 0
    payload := [1]
    signature := "zz"
    sequence := 0
    nonce := 4
    reply_to := none }

/-! ## Supporting lemmas -/

theorem natToLE_length (n x : Nat) : (natToLE n x).length = n := by
  induction n generalizing x with
  | zero => rfl
  | succ n ih => simp [natToLE, ih]

theorem bytesToNatLE_natToLE (n : Nat) : ∀ x, x < 256 ^ n →
    bytesToNatLE (natToLE n x) = x := by
  induction n with
  | zero =>
    intro x hx
    simp [Nat.pow_zero] at hx
    simp [natToLE, bytesToNatLE, hx]
  | succ n ih =>
    intro x hx
    have hdiv : x / 256 < 256 ^ n := by
      rw [Nat.div_lt_iff_lt_mul (by norm_num)]
      calc x < 256 ^ (n + 1) := hx
        _ = 256 ^ n * 256 := by ring
    simp [natToLE, bytesToNatLE, ih (x / 256) hdiv]
    omega

theorem p25519_pos : 0 < p25519 := by norm_num [p25519]

theorem p25519_lt : p25519 < 256 ^ 32 := by norm_num [p25519]

theorem x25519Dh_comm (x y : Nat) :
    x25519Dh x (x25519Public y) = x25519Dh y (x25519Public x) := by
  unfold x25519Dh x25519Public
  have hy : 9 ^ y % p25519 < 256 ^ 32 :=
    lt_trans (Nat.mod_lt _ p25519_pos) p25519_lt
  have hx : 9 ^ x % p25519 < 256 ^ 32 :=
    lt_trans (Nat.mod_lt _ p25519_pos) p25519_lt
  rw [bytesToNatLE_natToLE 32 _ hy, bytesToNatLE_natToLE 32 _ hx,
    ← Nat.pow_mod, ← Nat.pow_mod, ← Nat.pow_mul, ← Nat.pow_mul, Nat.mul_comm y x]

theorem aesGcm_roundtrip (key nonce pt : List Nat) (hk : key.length = 32) :
    aesGcmDecrypt key nonce (aesGcmEncrypt key nonce pt) = some pt := by
  unfold aesGcmEncrypt aesGcmDecrypt
  have hlen : (pt ++ key ++ [byteMix (nonce ++ pt)]).length = pt.length + 33 := by
    simp [hk]
  rw [hlen]
  have hsub : pt.length + 33 - 33 = pt.length := by omega
  have hassoc : pt ++ key ++ [byteMix (nonce ++ pt)]
      = pt ++ (key ++ [byteMix (nonce ++ pt)]) := by
    simp
  rw [if_neg (by omega), hsub, hassoc,
    List.take_left' rfl, List.drop_left' rfl, if_pos rfl]

theorem aesGcm_wrong_key (key key2 nonce pt : List Nat) (hk : key.length = 32)
    (hk2 : key2.length = 32) (hne : key2 ≠ key) :
    aesGcmDecrypt key2 nonce (aesGcmEncrypt key nonce pt) = none := by
  unfold aesGcmEncrypt aesGcmDecrypt
  have hlen : (pt ++ key ++ [byteMix (nonce ++ pt)]).length = pt.length + 33 := by
    simp [hk]
  rw [hlen]
  have hsub : pt.length + 33 - 33 = pt.length := by omega
  have hassoc : pt ++ key ++ [byteMix (nonce ++ pt)]
      = pt ++ (key ++ [byteMix (nonce ++ pt)]) := by
    simp
  rw [if_neg (by omega), hsub, hassoc, List.take_left' rfl, List.drop_left' rfl]
  rw [if_neg]
  intro hcontra
  exact hne (List.append_inj_left hcontra.symm (by rw [hk, hk2]))

theorem decrypt_encrypt (s : SharedSecret) (pt nonce : List Nat)
    (hk : s.key.length = 32) (hn : nonce.length = 12) :
    decrypt_message s (nonce ++ aesGcmEncrypt s.key nonce pt) = .ok pt := by
  unfold decrypt_message
  have hlen : (nonce ++ aesGcmEncrypt s.key nonce pt).length = 12 + (pt.length + 33) := by
    simp [aesGcmEncrypt, hk, hn]
  rw [hlen, if_neg (by omega), List.take_left' hn, List.drop_left' hn]
  simp only [aesGcm_roundtrip s.key nonce pt hk]

theorem decrypt_wrong_key (s s2 : SharedSecret) (pt nonce : List Nat)
    (hk : s.key.length = 32) (hk2 : s2.key.length = 32)
    (hn : nonce.length = 12) (hne : s2.key ≠ s.key) :
    decrypt_message s2 (nonce ++ aesGcmEncrypt s.key nonce pt)
      = .error "Decryption failed: aead::Error" := by
  unfold decrypt_message
  have hlen : (nonce ++ aesGcmEncrypt s.key nonce pt).length = 12 + (pt.length + 33) := by
    simp [aesGcmEncrypt, hk, hn]
  rw [hlen, if_neg (by omega), List.take_left' hn, List.drop_left' hn]
  simp only [aesGcm_wrong_key s.key s2.key nonce pt hk hk2 hne]

/-! ## Claim theorems: cryptographic layer -/

/-- C6: for all keypairs a and b, the 32-byte shared secret a derives from
b's exchange public key equals the one b derives from a's exchange public
key (derive_shared is commutative). -/
theorem claim_C6_derive_shared_commutes (a b : NodeSecrets) (na ra nb rb : String) :
    a.derive_shared ((b.identity nb rb).exchange_public)
      = b.derive_shared ((a.identity na ra).exchange_public) := by
  unfold NodeSecrets.derive_shared NodeSecrets.identity
  simp only
  rw [x25519Dh_comm a.exchange_secret b.exchange_secret]

/-- C7: decrypting an encryption under the same shared secret returns the
plaintext, and decrypting it under a shared secret with a different key
fails. -/
theorem claim_C7_encrypt_decrypt_roundtrip (s s2 : SharedSecret)
    (pt nonce c : List Nat) (hk : s.key.length = 32) (hk2 : s2.key.length = 32)
    (hn : nonce.length = 12) (hc : encrypt_message s pt nonce = .ok c) :
    decrypt_message s c = .ok pt ∧
      (s2.key ≠ s.key →
        decrypt_message s2 c = .error "Decryption failed: aead::Error") := by
  have hc2 : c = nonce ++ aesGcmEncrypt s.key nonce pt :=
    (Except.ok.inj hc).symm
  subst hc2
  exact ⟨decrypt_encrypt s pt nonce hk hn,
    fun hne => decrypt_wrong_key s s2 pt nonce hk hk2 hn hne⟩

/-- Witness for C7 at a concrete key pair, plaintext and nonce. -/
theorem claim_C7_encrypt_decrypt_roundtrip_witness :
    decrypt_message ⟨List.replicate 32 0⟩
        (List.replicate 12 0 ++
          aesGcmEncrypt (List.replicate 32 0) (List.replicate 12 0) [1, 2, 3])
      = .ok [1, 2, 3] ∧
    decrypt_message ⟨List.replicate 32 1⟩
        (List.replicate 12 0 ++
          aesGcmEncrypt (List.replicate 32 0) (List.replicate 12 0) [1, 2, 3])
      = .error "Decryption failed: aead::Error" := by
  have h := claim_C7_encrypt_decrypt_roundtrip ⟨List.replicate 32 0⟩
    ⟨List.replicate 32 1⟩ [1, 2, 3] (List.replicate 12 0)
    (List.replicate 12 0 ++
      aesGcmEncrypt (List.replicate 32 0) (List.replicate 12 0) [1, 2, 3])
    (by decide) (by decide) (by decide) rfl
  exact ⟨h.1, h.2 (by decide)⟩

/-- C8 counterexample: the source returns two different error messages —
truncation is distinguishable from an AEAD tag failure, so the claim that
the two failures are indistinguishable is false. -/
theorem claim_C8_counterexample :
    decrypt_message ⟨List.replicate 32 0⟩ (List.replicate 5 0)
        = .error "Invalid encrypted message: too short" ∧
    decrypt_message ⟨List.replicate 32 0⟩ (List.replicate 12 0 ++ List.replicate 33 1)
        = .error "Decryption failed: aead::Error" ∧
    ("Invalid encrypted message: too short" : String)
        ≠ "Decryption failed: aead::Error" := by
  refine ⟨by rfl, by rfl, by decide⟩

/-- C8 amended: decrypt_message does fail on both truncated blobs and tag
failures, but with two distinct error messages — the failure cause is
distinguishable, contrary to the claim. -/
theorem claim_C8_amended_distinct_errors :
    (∀ (s : SharedSecret) (blob : List Nat), blob.length < 12 →
        decrypt_message s blob = .error "Invalid encrypted message: too short") ∧
    (∀ (s : SharedSecret) (blob : List Nat) (e : String), 12 ≤ blob.length →
        decrypt_message s blob = .error e → e = "Decryption failed: aead::Error") ∧
    ("Invalid encrypted message: too short" : String)
        ≠ "Decryption failed: aead::Error" := by
  refine ⟨?_, ?_, by decide⟩
  · intro s blob hlen
    unfold decrypt_message
    rw [if_pos hlen]
  · intro s blob e hlen hdec
    unfold decrypt_message at hdec
    rw [if_neg (by omega)] at hdec
    cases haes : aesGcmDecrypt s.key (blob.take 12) (blob.drop 12) with
    | some pt =>
      simp only [haes] at hdec
      exact absurd hdec (fun hc => Except.noConfusion hc)
    | none =>
      simp only [haes] at hdec
      exact (Except.error.inj hdec).symm

/-- Witness for the amended C8 at a concrete secret and blobs. -/
theorem claim_C8_amended_distinct_errors_witness :
    decrypt_message ⟨List.replicate 32 0⟩ [0]
        = .error "Invalid encrypted message: too short" ∧
    ("Invalid encrypted message: too short" : String)
        ≠ "Decryption failed: aead::Error" :=
  ⟨claim_C8_amended_distinct_errors.1 ⟨List.replicate 32 0⟩ [0] (by decide),
    claim_C8_amended_distinct_errors.2.2⟩

/-! ## Claim theorems: standalone admission path -/

set_option maxRecDepth 100000 in
/-- C1: evaluation of the standalone admission path at a forged packet.  A
known, non-Rejected sender presents a well-formed 64-byte signature that
does not verify (`SignedPacket::verify` returns `Ok(false)`), yet
`should_admit` returns true and leaves the sender's trust level untouched,
because the source only reacts to the `Err` variant of `verify`.  This
contradicts both the claim and the source's own step-4 comment and warn
message. -/
theorem claim_C1_forged_signature_admitted :
    c1Packet.header.signature ≠ idealSig c1PeerState.public_key c1Packet.material ∧
    c1Packet.verify c1PeerState.public_key 1000 = .ok false ∧
    (c1Mgr.should_admit c1Packet 1000).1 = true ∧
    ((c1Mgr.should_admit c1Packet 1000).2.peer_registry.lookup "A").map
        PeerState.trust_level = some PTrustLevel.New := by
  refine ⟨by decide, by decide, by decide, by decide⟩

/-- C3: a Blacklisted (mesh path) / Rejected (standalone path) sender is
always rejected by admission, whatever the envelope carries — the mesh
handler drops it before any further processing and `should_admit` returns
false on every branch. -/
theorem claim_C3_blacklisted_always_rejected :
    (∀ (st : AiMeshState) (msg : AiMessage) (rng : Rng) (now : Nat) (peer : Peer),
        st.peers.lookup msg.sender = some peer →
        peer.trust_level = .Blacklisted →
        handleMessage st msg rng now =
          ⟨.ok (), st, [], [], ["Rejecting message from low-reputation peer"]⟩) ∧
    (∀ (m : AdmissionManager) (p : SignedPacket) (now : Nat) (ps : PeerState),
        m.peer_registry.lookup p.header.node_id = some ps →
        ps.trust_level = .Rejected →
        (m.should_admit p now).1 = false) := by
  constructor
  · intro st msg rng now peer hlook htl
    have hrej : repFilterRejects st.peers msg = true := by
      unfold repFilterRejects
      rw [hlook]
      simp [htl]
    unfold handleMessage
    rw [hrej]
    simp
  · intro m p now ps hlook htl
    unfold AdmissionManager.should_admit
    dsimp only
    split
    · rfl
    · rw [hlook]
      simp [htl]

/-- Witness for C3: a concrete blacklisted mesh peer and a concrete
Rejected registry entry, the latter presenting a correctly signed packet. -/
theorem claim_C3_blacklisted_always_rejected_witness :
    handleMessage c3State c3Msg testRng 0 =
      ⟨.ok (), c3State, [], [], ["Rejecting message from low-reputation peer"]⟩ ∧
    c3Packet.verify (List.replicate 32 7) 400 = .ok true ∧
    (c3Mgr.should_admit c3Packet 400).1 = false := by
  refine ⟨?_, by decide, ?_⟩
  · exact claim_C3_blacklisted_always_rejected.1 c3State c3Msg testRng 0 c3Peer
      (by decide) (by decide)
  · exact claim_C3_blacklisted_always_rejected.2 c3Mgr c3Packet 400
      { public_key := List.replicate 32 7
        trust_level := .Rejected
        last_seen := 0
        packet_count := 0 } (by decide) rfl

/-! ## Claim theorems: count-bounded replay cache -/

theorem check_and_add_fresh (c : ReplayCacheM) (n : Nat) (h1 : n ∉ c.seen)
    (h2 : c.order.length < c.capacity) :
    c.check_and_add n =
      (true, { c with seen := n :: c.seen, order := c.order ++ [n] }) := by
  unfold ReplayCacheM.check_and_add
  rw [if_neg h1, if_neg (by omega)]

theorem insertAll_below_cap : ∀ (xs : List Nat) (c : ReplayCacheM),
    xs.Nodup → (∀ n ∈ xs, n ∉ c.seen) →
    c.order.length + xs.length ≤ c.capacity →
    c.insertAll xs =
      { c with seen := xs.reverse ++ c.seen, order := c.order ++ xs } := by
  intro xs
  induction xs with
  | nil => intro c _ _ _; simp [ReplayCacheM.insertAll]
  | cons n xs ih =>
    intro c hnd hfresh hlen
    have hstep := check_and_add_fresh c n (hfresh n (by simp)) (by simp at hlen; omega)
    have hrest : ReplayCacheM.insertAll c (n :: xs)
        = ReplayCacheM.insertAll ((c.check_and_add n).2) xs := by
      simp [ReplayCacheM.insertAll]
    rw [hrest, hstep]
    have hys := ih { c with seen := n :: c.seen, order := c.order ++ [n] }
      (by exact hnd.of_cons)
      (by
        intro m hm
        simp only [List.mem_cons]
        push_neg
        refine ⟨?_, hfresh m (by simp [hm])⟩
        intro heq
        subst heq
        exact (List.nodup_cons.mp hnd).1 hm)
      (by simp at hlen ⊢; omega)
    rw [hys]
    simp

theorem check_and_add_evict (c : ReplayCacheM) (n old : Nat) (rest : List Nat)
    (h1 : n ∉ c.seen) (h2 : c.order = old :: rest)
    (h3 : c.order.length ≥ c.capacity) :
    c.check_and_add n =
      (true, { c with seen := n :: c.seen.erase old, order := rest ++ [n] }) := by
  have h3' : (old :: rest).length ≥ c.capacity := by rw [← h2]; exact h3
  unfold ReplayCacheM.check_and_add
  rw [if_neg h1, h2]
  have h3n : c.capacity ≤ rest.length + 1 := by simpa using h3'
  simp [h3n]

/-- C5 counterexample: for capacity N = 0, inserting N + 1 = 1 nonce into an
empty cache does not evict it — the repeated `check_and_add` returns false,
not true as the claim requires for every capacity. -/
theorem claim_C5_counterexample :
    [5].Nodup ∧ [5].length = 0 + 1 ∧
    ((ReplayCacheM.insertAll (ReplayCacheM.empty 0) [5]).check_and_add 5).1 = false := by
  refine ⟨by decide, rfl, by decide⟩

/-- C5 amended: `check_and_add` is true exactly on untracked nonces (false
and state-preserving on tracked ones), and for every positive capacity N,
inserting N + 1 pairwise-distinct nonces into an empty cache evicts the
first, whose `check_and_add` then returns true again.  (The claim as stated
fails only for the degenerate capacity N = 0.) -/
theorem claim_C5_amended_replay_cache (cap : Nat) (xs : List Nat) (x0 : Nat)
    (hcap : 0 < cap) (hnd : xs.Nodup) (hlen : xs.length = cap + 1)
    (hhead : xs.head? = some x0) :
    (∀ (c : ReplayCacheM) (n : Nat), n ∉ c.seen → (c.check_and_add n).1 = true) ∧
    (∀ (c : ReplayCacheM) (n : Nat), n ∈ c.seen →
        (c.check_and_add n).1 = false ∧ (c.check_and_add n).2 = c) ∧
    x0 ∉ (ReplayCacheM.insertAll (ReplayCacheM.empty cap) xs).seen ∧
    ((ReplayCacheM.insertAll (ReplayCacheM.empty cap) xs).check_and_add x0).1 = true := by
  have hfresh : ∀ (c : ReplayCacheM) (n : Nat), n ∉ c.seen →
      (c.check_and_add n).1 = true := by
    intro c n h
    unfold ReplayCacheM.check_and_add
    rw [if_neg h]
  have htracked : ∀ (c : ReplayCacheM) (n : Nat), n ∈ c.seen →
      (c.check_and_add n).1 = false ∧ (c.check_and_add n).2 = c := by
    intro c n h
    unfold ReplayCacheM.check_and_add
    rw [if_pos h]
    exact ⟨rfl, rfl⟩
  refine ⟨hfresh, htracked, ?_⟩
  obtain hnil | ⟨ys, z, hxs⟩ := xs.eq_nil_or_concat'
  · rw [hnil] at hlen; simp at hlen
  subst hxs
  have hyslen : ys.length = cap := by simp at hlen; omega
  have hysne : ys ≠ [] := by
    intro h; rw [h] at hyslen; simp at hyslen; omega
  obtain ⟨y0, ytl, hys⟩ := List.exists_cons_of_ne_nil hysne
  subst hys
  have hx0 : y0 = x0 := by simp at hhead; exact hhead
  subst hx0
  have hyl : ytl.length + 1 = cap := by simpa using hyslen
  have hnd1 : (y0 :: ytl).Nodup := (List.nodup_append.mp hnd).1
  have hznotin : z ∉ y0 :: ytl := by
    intro hz
    exact (List.nodup_append.mp hnd).2.2 hz (by simp)
  have hfill : (ReplayCacheM.empty cap).insertAll (y0 :: ytl)
      = { seen := (y0 :: ytl).reverse, order := y0 :: ytl, capacity := cap } := by
    rw [insertAll_below_cap (y0 :: ytl) (ReplayCacheM.empty cap) hnd1
      (by intro n _; simp [ReplayCacheM.empty])
      (by simp [ReplayCacheM.empty]; omega)]
    simp [ReplayCacheM.empty]
  have hy0rev : y0 ∉ ytl.reverse := by
    simp only [List.mem_reverse]
    exact (List.nodup_cons.mp hnd1).1
  have herase : ((y0 :: ytl).reverse).erase y0 = ytl.reverse := by
    rw [List.reverse_cons, List.erase_append_right _ hy0rev]
    simp
  have hsplit : ReplayCacheM.insertAll (ReplayCacheM.empty cap) (y0 :: ytl ++ [z])
      = (((ReplayCacheM.empty cap).insertAll (y0 :: ytl)).check_and_add z).2 := by
    have : y0 :: ytl ++ [z] = (y0 :: ytl) ++ [z] := by simp
    rw [this]
    simp [ReplayCacheM.insertAll]
  have hstep2 : ((ReplayCacheM.empty cap).insertAll (y0 :: ytl)).check_and_add z
      = (true, { seen := z :: ytl.reverse, order := ytl ++ [z], capacity := cap }) := by
    rw [hfill]
    rw [check_and_add_evict _ z y0 ytl
      (by simp only [List.mem_reverse]; exact hznotin) rfl (by simp; omega)]
    rw [herase]
  have hy0final : y0 ∉ z :: ytl.reverse := by
    intro hmem
    rcases List.mem_cons.mp hmem with heq | hmem2
    · exact hznotin (by simp [heq])
    · exact hy0rev hmem2
  rw [hsplit, hstep2]
  exact ⟨hy0final, hfresh _ y0 hy0final⟩

/-- Witness for the amended C5 at capacity 1 and nonces [1, 2]. -/
theorem claim_C5_amended_replay_cache_witness :
    (((ReplayCacheM.empty 3).check_and_add 9).1 = true) ∧
    ((ReplayCacheM.insertAll (ReplayCacheM.empty 1) [1, 2]).check_and_add 1).1 = true := by
  have h := claim_C5_amended_replay_cache 1 [1, 2] 1 (by decide) (by decide) rfl rfl
  exact ⟨h.1 (ReplayCacheM.empty 3) 9 (by decide), h.2.2.2⟩

/-! ## Peer-table lookup lemmas -/

theorem lookup_mem {β : Type} : ∀ (l : List (String × β)) (k : String) (v : β),
    l.lookup k = some v → (k, v) ∈ l := by
  intro l
  induction l with
  | nil => intro k v h; simp at h
  | cons kv rest ih =>
    intro k v h
    rw [List.lookup_cons] at h
    split at h
    · next hbeq =>
      have hk : k = kv.1 := by simpa using hbeq
      have hv : kv.2 = v := Option.some.inj h
      rw [hk, ← hv]
      exact List.mem_cons_self _ _
    · next hbeq => exact List.mem_cons_of_mem _ (ih k v h)

theorem tableUpsert_lookup_self (t : List (String × Peer)) (p : Peer) :
    (tableUpsert t p).lookup p.identity.id = some p := by
  unfold tableUpsert
  split
  · next h =>
    induction t with
    | nil => simp at h
    | cons kv rest ih =>
      simp only [List.map_cons]
      by_cases hk : kv.1 = p.identity.id
      · rw [if_pos hk, hk]
        simp
      · rw [if_neg hk]
        have hbeq : (p.identity.id == kv.1) = false := by
          simp [Ne.symm hk]
        rw [List.lookup_cons] at h ⊢
        rw [hbeq] at h ⊢
        simp only at h ⊢
        exact ih h
  · next h =>
    rw [List.lookup_append]
    have hnone : t.lookup p.identity.id = none := by
      cases hl : t.lookup p.identity.id
      · rfl
      · rw [hl] at h; simp at h
    rw [hnone]
    simp

theorem tableUpsert_lookup_key (t : List (String × Peer)) (p : Peer) (k : String)
    (hk : p.identity.id = k) : (tableUpsert t p).lookup k = some p := by
  subst hk
  exact tableUpsert_lookup_self t p

theorem tableUpdate_lookup (t : List (String × Peer)) (k : String)
    (f : Peer → Peer) :
    (tableUpdate t k f).lookup k = (t.lookup k).map f := by
  unfold tableUpdate
  induction t with
  | nil => simp
  | cons kv rest ih =>
    obtain ⟨k1, v1⟩ := kv
    simp only [List.map_cons]
    by_cases hk : k1 = k
    · subst hk
      simp [List.lookup_cons]
    · have hbeq : (k == k1) = false := by simp [Ne.symm hk]
      simp only [if_neg hk, List.lookup_cons, hbeq]
      exact ih

/-! ## Claim theorems: trust-level transitions -/

/-- C4 counterexample: `Peer::authenticate` raises a Blacklisted peer to
Authenticated (Blacklisted = -1 compares below Authenticated = 2), so
Blacklisted is not terminal under the listed peer operations. -/
theorem claim_C4_counterexample :
    ((Peer.new (testIdentity "X") 0).blacklist).trust_level
        = TrustLevel.Blacklisted ∧
    (((Peer.new (testIdentity "X") 0).blacklist).authenticate).trust_level
        = TrustLevel.Authenticated ∧
    TrustLevel.Authenticated ≠ TrustLevel.Blacklisted := by
  refine ⟨by decide, by decide, by decide⟩

/-- C4 amended: `authenticate` and `update_trust` never lower the trust
level and `blacklist` reaches Blacklisted from any level; however
Blacklisted is not terminal — `authenticate` lifts a Blacklisted peer to
Authenticated — and the Syn branch of `handle_handshake` replaces an
existing peer record with a fresh Discovered one (a backward move for any
higher level). -/
theorem claim_C4_amended_trust_transitions :
    (∀ p : Peer, p.trust_level.toInt ≤ (p.authenticate).trust_level.toInt) ∧
    (∀ (p : Peer) (d : Int),
        p.trust_level.toInt ≤ (p.update_trust d).trust_level.toInt) ∧
    (∀ p : Peer, (p.blacklist).trust_level = .Blacklisted) ∧
    (∀ p : Peer, p.trust_level = .Blacklisted →
        (p.authenticate).trust_level = .Authenticated) ∧
    (∀ (st : AiMeshState) (msg : AiMessage) (rng : Rng) (now : Nat)
        (hs : HandshakeMessage),
        decodeHandshake msg.payload = some hs → hs.kind = .Syn →
        hexEncode (sha256Model hs.signing_public) = msg.sender →
        ((handleHandshake st msg rng now).state.peers.lookup msg.sender).map
            Peer.trust_level = some TrustLevel.Discovered) := by
  refine ⟨?_, ?_, ?_, ?_, ?_⟩
  · intro p
    unfold Peer.authenticate
    split
    · next h => simp; omega
    · next h => exact le_refl _
  · intro p d
    unfold Peer.update_trust
    dsimp only
    split
    · next h =>
      rw [h.1]
      dsimp only
      decide
    · next _ => exact le_refl _
  · intro p; rfl
  · intro p h
    unfold Peer.authenticate
    rw [if_pos (by rw [h]; decide)]
  · intro st msg rng now hs hdec hkind hid
    unfold handleHandshake
    rw [hdec]
    obtain ⟨k, ex, sg, nn, ch⟩ := hs
    simp only at hkind hid
    subst hkind
    simp only
    rw [if_neg (fun hne => hne hid)]
    simp only [encrypt_message]
    rw [tableUpsert_lookup_key st.peers _ msg.sender rfl]
    rfl

/-- Witness for the amended C4: transitions evaluated on the blacklisted
fixture peer, and the Syn reset on a concrete handshake. -/
theorem claim_C4_amended_trust_transitions_witness :
    c3Peer.trust_level.toInt ≤ (c3Peer.authenticate).trust_level.toInt ∧
    (c3Peer.blacklist).trust_level = TrustLevel.Blacklisted ∧
    (c3Peer.authenticate).trust_level = TrustLevel.Authenticated ∧
    ((handleHandshake (testMeshState []) c4SynMsg testRng 0).state.peers.lookup
        c4SynMsg.sender).map Peer.trust_level = some TrustLevel.Discovered := by
  refine ⟨claim_C4_amended_trust_transitions.1 c3Peer,
    claim_C4_amended_trust_transitions.2.2.1 c3Peer,
    claim_C4_amended_trust_transitions.2.2.2.1 c3Peer (by decide),
    claim_C4_amended_trust_transitions.2.2.2.2 (testMeshState []) c4SynMsg testRng 0
      c4SynHs (by decide) rfl rfl⟩

/-! ## Claim theorems: handshake challenge verification -/

/-- C2 amended: the initiator's SynAck handler never compares the decrypted
challenge with the Syn nonce N_a (which is not retained): a decryption
error aborts with no state change, a decrypted length other than 16 drops
with no state change, and any 16-byte decryption — whatever its value —
marks the peer Authenticated and sends the Ack. -/
theorem claim_C2_amended_synack (st : AiMeshState) (msg : AiMessage)
    (rng : Rng) (now : Nat) (hs : HandshakeMessage) (peer : Peer)
    (shared ch : List Nat)
    (hdec : decodeHandshake msg.payload = some hs)
    (hkind : hs.kind = .SynAck)
    (hpeer : st.peers.lookup msg.sender = some peer)
    (hsec : peer.shared_secret = some shared)
    (hch : hs.challenge = some ch) :
    (∀ e, decrypt_message ⟨shared⟩ ch = .error e →
        handleHandshake st msg rng now = ⟨.error e, st, [], [], []⟩) ∧
    (∀ dec, decrypt_message ⟨shared⟩ ch = .ok dec → dec.length ≠ 16 →
        handleHandshake st msg rng now =
          ⟨.ok (), st, [], [], ["Invalid handshake challenge"]⟩) ∧
    (∀ dec, decrypt_message ⟨shared⟩ ch = .ok dec → dec.length = 16 →
        (handleHandshake st msg rng now).res = .ok () ∧
        (handleHandshake st msg rng now).state.peers
            = tableUpdate st.peers msg.sender Peer.authenticate ∧
        (handleHandshake st msg rng now).outMsgs.length = 1) := by
  obtain ⟨k, ex, sg, nn, chf⟩ := hs
  simp only at hkind hch
  subst hkind
  subst hch
  unfold handleHandshake
  rw [hdec]
  dsimp only
  rw [hpeer]
  dsimp only
  rw [hsec]
  dsimp only
  refine ⟨?_, ?_, ?_⟩
  · intro e he
    rw [he]
  · intro dec hd h16
    rw [hd]
    dsimp only
    rw [if_pos h16]
  · intro dec hd h16
    rw [hd]
    dsimp only
    rw [if_neg (fun hne => hne h16)]
    exact ⟨rfl, rfl, rfl⟩

set_option maxRecDepth 1000000 in
/-- C2 counterexample: the initiator sends Syn with N_a = 16 zero bytes;
peer B answers with a challenge that decrypts to 16 one-bytes ≠ N_a, yet
the handler marks B Authenticated and sends the Ack — the required
equality with N_a is never checked. -/
theorem claim_C2_counterexample :
    initiate_handshake c2State "B" c2RngA 0 = .ok (c2State, [c2SynMsg]) ∧
    (decodeHandshake c2SynMsg.payload).map HandshakeMessage.nonce
        = some (List.replicate 16 0) ∧
    decrypt_message ⟨c2Shared⟩ c2Challenge = .ok (List.replicate 16 1) ∧
    (List.replicate 16 1 : List Nat) ≠ List.replicate 16 0 ∧
    ((handleHandshake c2State c2SynAckMsg testRng 0).state.peers.lookup "B").map
        Peer.trust_level = some TrustLevel.Authenticated ∧
    (handleHandshake c2State c2SynAckMsg testRng 0).outMsgs.length = 1 := by
  refine ⟨by decide, by decide, by decide, by decide, by decide, by decide⟩

set_option maxRecDepth 1000000 in
/-- Witness for the amended C2 at the concrete fixture state. -/
theorem claim_C2_amended_synack_witness :
    (handleHandshake c2State c2SynAckMsg testRng 0).res = .ok () ∧
    (handleHandshake c2State c2SynAckMsg testRng 0).state.peers
        = tableUpdate c2State.peers "B" Peer.authenticate := by
  have h := claim_C2_amended_synack c2State c2SynAckMsg testRng 0 c2SynAckHs
    c2PeerB c2Shared c2Challenge (by decide) rfl (by decide) (by decide) rfl
  have h3 := h.2.2 (List.replicate 16 1) (by decide) (by decide)
  exact ⟨h3.1, h3.2.1⟩

/-! ## Reputation reload lemmas -/

theorem reloadPeer_id (e : ReputationEntry) (now : Nat) :
    (reloadPeer e now).identity.id = e.id := by
  unfold reloadPeer Peer.update_trust Peer.set_trust_level Peer.new
  dsimp only
  split <;> rfl

theorem reloadPeer_spec (e : ReputationEntry) (now : Nat)
    (h : e.trust_score ≤ 100) :
    (reloadPeer e now).trust_score = e.trust_score ∧
    (reloadPeer e now).trust_level =
      (if e.trust_level = .Authenticated ∧ 80 ≤ e.trust_score then .Trusted
       else e.trust_level) := by
  unfold reloadPeer Peer.update_trust Peer.set_trust_level Peer.new
  dsimp only
  have hdelta : i8Wrap (i8OfU8 e.trust_score - i8OfU8 50)
      = (e.trust_score : Int) - 50 := by
    unfold i8Wrap i8OfU8
    rw [if_pos (by omega : e.trust_score < 128),
      if_pos (by norm_num : (50 : Nat) < 128)]
    omega
  rw [hdelta]
  have hclamp : (clampScore (((50 : Nat) : Int) + ((e.trust_score : Int) - 50))).toNat
      = e.trust_score := by
    unfold clampScore
    split_ifs <;> omega
  rw [hclamp]
  split
  · next hcond => exact ⟨rfl, rfl⟩
  · next hcond => exact ⟨rfl, rfl⟩

theorem rebuild_foldl (now2 : Nat) : ∀ (es : List ReputationEntry)
    (acc : List (String × Peer)),
    (∀ e ∈ es, acc.lookup e.id = none) → (es.map ReputationEntry.id).Nodup →
    es.foldl (fun t e => tableUpsert t (reloadPeer e now2)) acc
      = acc ++ es.map (fun e => (e.id, reloadPeer e now2)) := by
  intro es
  induction es with
  | nil => intro acc _ _; simp
  | cons e es ih =>
    intro acc hnone hnd
    simp only [List.foldl_cons, List.map_cons]
    have hup : tableUpsert acc (reloadPeer e now2)
        = acc ++ [(e.id, reloadPeer e now2)] := by
      unfold tableUpsert
      rw [reloadPeer_id, hnone e (by simp)]
      simp
    rw [hup]
    rw [ih (acc ++ [(e.id, reloadPeer e now2)]) ?_ (List.nodup_cons.mp hnd).2]
    · simp
    · intro e2 he2
      rw [List.lookup_append, hnone e2 (by simp [he2])]
      have hne : e2.id ≠ e.id := by
        have hmem := (List.nodup_cons.mp hnd).1
        intro hcontra
        exact hmem (by rw [← hcontra]; exact List.mem_map_of_mem _ he2)
      rw [List.lookup_cons, show (e2.id == e.id) = false by simp [hne]]
      rfl

theorem lookup_map_reload (peers : List (String × Peer)) (now now2 : Nat)
    (k : String) :
    ((peers.map (fun kv => (kv.1,
        reloadPeer ⟨kv.2.identity.id, kv.2.trust_level, kv.2.trust_score, now⟩
          now2))).lookup k)
      = (peers.lookup k).map
          (fun v => reloadPeer ⟨v.identity.id, v.trust_level, v.trust_score, now⟩
            now2) := by
  induction peers with
  | nil => simp
  | cons kv rest ih =>
    obtain ⟨k1, v1⟩ := kv
    simp only [List.map_cons]
    by_cases hk : k1 = k
    · subst hk
      simp [List.lookup_cons]
    · have hbeq : (k == k1) = false := by simp [Ne.symm hk]
      simp only [List.lookup_cons, hbeq]
      exact ih

/-! ## Claim theorems: reputation persistence round-trip -/

/-- C9 counterexample: a reachable peer saved as (Authenticated, 85)
reloads as (Trusted, 85) — the boot-time reload calls `update_trust`,
whose auto-promotion fires, so the round-trip does not reproduce an
identical trust_level. -/
theorem claim_C9_counterexample :
    c9Peer.trust_level = TrustLevel.Authenticated ∧
    c9Peer.trust_score = 85 ∧
    ((rebuildPeerTable (reputationSave [("p1", c9Peer)] 0) 0).lookup "p1").map
        Peer.trust_level = some TrustLevel.Trusted ∧
    TrustLevel.Trusted ≠ TrustLevel.Authenticated := by
  refine ⟨by decide, by decide, by decide, by decide⟩

/-- C9 amended: rebuilding the table from saved entries reproduces each
peer's trust_score exactly, and its trust_level exactly unless the saved
state was Authenticated with score ≥ 80, in which case the reload promotes
it to Trusted. -/
theorem claim_C9_amended_reputation_roundtrip (peers : List (String × Peer))
    (now now2 : Nat)
    (hkeys : (peers.map Prod.fst).Nodup)
    (hids : ∀ kv ∈ peers, kv.2.identity.id = kv.1)
    (hscore : ∀ kv ∈ peers, kv.2.trust_score ≤ 100)
    (id : String) (p : Peer) (hlook : peers.lookup id = some p) :
    ∃ q : Peer,
      (rebuildPeerTable (reputationSave peers now) now2).lookup id = some q ∧
      q.trust_score = p.trust_score ∧
      q.trust_level =
        (if p.trust_level = .Authenticated ∧ 80 ≤ p.trust_score then .Trusted
         else p.trust_level) := by
  have hidsmap : (reputationSave peers now).map ReputationEntry.id
      = peers.map Prod.fst := by
    unfold reputationSave
    rw [List.map_map]
    exact List.map_congr_left (fun a ha => hids a ha)
  have hnd : ((reputationSave peers now).map ReputationEntry.id).Nodup := by
    rw [hidsmap]; exact hkeys
  have hfold := rebuild_foldl now2 (reputationSave peers now) []
    (fun e _ => rfl) hnd
  unfold rebuildPeerTable
  rw [hfold]
  simp only [List.nil_append]
  have hmapshape : (reputationSave peers now).map
        (fun e => (e.id, reloadPeer e now2))
      = peers.map (fun kv => (kv.1,
          reloadPeer ⟨kv.2.identity.id, kv.2.trust_level, kv.2.trust_score, now⟩
            now2)) := by
    unfold reputationSave
    rw [List.map_map]
    apply List.map_congr_left
    intro a ha
    dsimp only [Function.comp]
    rw [hids a ha]
  rw [hmapshape, lookup_map_reload, hlook]
  have hp100 : p.trust_score ≤ 100 := hscore (id, p) (lookup_mem peers id p hlook)
  have hspec := reloadPeer_spec
    ⟨p.identity.id, p.trust_level, p.trust_score, now⟩ now2 hp100
  exact ⟨_, rfl, hspec.1, hspec.2⟩

/-- Witness for the amended C9: a freshly discovered peer (Discovered, 50)
round-trips unchanged. -/
theorem claim_C9_amended_reputation_roundtrip_witness :
    ((rebuildPeerTable
        (reputationSave [("D", Peer.new (testIdentity "D") 0)] 0) 0).lookup
          "D").map Peer.trust_score = some 50 ∧
    ((rebuildPeerTable
        (reputationSave [("D", Peer.new (testIdentity "D") 0)] 0) 0).lookup
          "D").map Peer.trust_level = some TrustLevel.Discovered := by
  obtain ⟨q, hq, hsc, hlv⟩ := claim_C9_amended_reputation_roundtrip
    [("D", Peer.new (testIdentity "D") 0)] 0 0 (by decide) (by decide)
    (by decide) "D" (Peer.new (testIdentity "D") 0) (by decide)
  rw [hq]
  constructor
  · simp [hsc, Peer.new]
  · simp [hlv, Peer.new]

/-! ## Claim theorems: implicit signature-gate behaviour -/

/-- C10 counterexample: an envelope whose signature field is non-hex is not
necessarily "processed and dispatched" — when its sender is a known
Blacklisted peer, the reputation filter drops it before any dispatch, so
the claim's unconditional processing statement is false. -/
theorem claim_C10_counterexample :
    hexDecode c10Msg.signature = none ∧
    (c3State.peers.lookup c10Msg.sender).isSome = true ∧
    handleMessage c3State c10Msg testRng 0 =
      ⟨.ok (), c3State, [], [], ["Rejecting message from low-reputation peer"]⟩ ∧
    (handleMessage c3State c10Msg testRng 0).inMsgs = [] := by
  refine ⟨by decide, by decide, by decide, by decide⟩

/-- C10 amended: the signature gate verifies only when the sender is a
known peer and the signature hex-decodes to exactly 64 bytes; for an
unknown sender, a non-hex signature or any other decoded length it is a
no-op, and — provided the reputation filter passes — `handle_message`
continues exactly as if the gate were absent (replay check and dispatch
only). -/
theorem claim_C10_amended_signature_gate (st : AiMeshState) (msg : AiMessage)
    (rng : Rng) (now : Nat)
    (hsig : st.peers.lookup msg.sender = none ∨ hexDecode msg.signature = none ∨
        (∀ bs, hexDecode msg.signature = some bs → bs.length ≠ 64))
    (hrep : repFilterRejects st.peers msg = false) :
    signatureGate st.peers msg = .proceed ∧
    handleMessage st msg rng now = handleMessageCore st msg rng now := by
  have hgate : signatureGate st.peers msg = .proceed := by
    unfold signatureGate
    rcases hsig with h | h | h
    · rw [h]
    · cases hl : st.peers.lookup msg.sender with
      | none => rfl
      | some peer =>
        dsimp only
        rw [h]
    · cases hl : st.peers.lookup msg.sender with
      | none => rfl
      | some peer =>
        dsimp only
        cases hd : hexDecode msg.signature with
        | none => rfl
        | some bs =>
          dsimp only
          rw [if_neg (h bs hd)]
  refine ⟨hgate, ?_⟩
  unfold handleMessage
  rw [hrep, hgate]
  rfl

/-- Witness for the amended C10: unknown sender with a non-hex signature
field proceeds through the gate. -/
theorem claim_C10_amended_signature_gate_witness :
    signatureGate (testMeshState []).peers c10UnknownMsg = .proceed ∧
    handleMessage (testMeshState []) c10UnknownMsg testRng 0
      = handleMessageCore (testMeshState []) c10UnknownMsg testRng 0 :=
  claim_C10_amended_signature_gate (testMeshState []) c10UnknownMsg testRng 0
    (Or.inl (by decide)) (by decide)

end Ippoc
